import Mathlib

/-!
Verification of the selection-box geometry engine of `apps/desktop/src/components/Cropper.tsx`.

Numbers are embedded as exact rationals (`ℚ`): the source computes in JS doubles,
and every claim here is about the algebraic behaviour of the handlers, not about
rounding.  One claim (discarding of non-finite deltas) is about IEEE special
values, so a small symbolic model of `±∞`/`NaN` propagation (`FVal`) is used there.

The `Box` primitive is imported by the source from `~/utils/box`, a file that is
not part of the supplied sources; its operations are modelled from the spec
(section 4.1), as marked on each definition.
-/

namespace Cropper

/-- A pair of rational coordinates, the `XY<number>` of the source. -/
structure XY where
  x : ℚ
  y : ℚ
deriving DecidableEq, Repr

/-- The committed crop value: `{ position, size }` in mapped space (source `Crop`). -/
structure Crop where
  position : XY
  size : XY
deriving DecidableEq, Repr

/-- Executable minimum on `ℚ` (the lattice `min` does not reduce in the kernel);
`rmin_eq_min` identifies it with `min`. -/
def rmin (a b : ℚ) : ℚ :=
  if a ≤ b then a else b

/-- Executable maximum on `ℚ`; `rmax_eq_max` identifies it with `max`. -/
def rmax (a b : ℚ) : ℚ :=
  if a ≤ b then b else a

/-- Source `clamp` (Cropper.tsx line 74): `Math.max(min, Math.min(max, n))`. -/
def clamp (n lo hi : ℚ) : ℚ :=
  rmax lo (rmin hi n)

/-- Source `minSize` memo (Cropper.tsx lines 113-119): per axis the lesser of
100 units and 10% of the mapped dimension. -/
def minSize (mapped : XY) : XY :=
  ⟨rmin 100 (mapped.x * (1/10)), rmin 100 (mapped.y * (1/10))⟩

/-- Modelled from the spec: the `Box` rectangle primitive of `~/utils/box`, which
is not among the supplied source files (spec section 4.1, "Box"). -/
structure Box where
  x : ℚ
  y : ℚ
  width : ℚ
  height : ℚ
deriving DecidableEq, Repr

/-- Source `Box.from(position, size)` constructor call shape. -/
def Box.ofCrop (c : Crop) : Box :=
  ⟨c.position.x, c.position.y, c.size.x, c.size.y⟩

/-- Modelled from the spec: `move(x, y)` sets the top-left corner directly and
does not itself enforce the boundary (spec section 4.1). -/
def Box.move (b : Box) (nx ny : ℚ) : Box :=
  ⟨nx, ny, b.width, b.height⟩

/-- Modelled from the spec: `resize(width, height, origin)` changes the size
while keeping the point identified by the normalized anchor `origin` fixed
(spec section 4.1): the anchor point is `position + origin * size`. -/
def Box.resize (b : Box) (w h : ℚ) (origin : XY) : Box :=
  ⟨b.x + origin.x * (b.width - w), b.y + origin.y * (b.height - h), w, h⟩

/-- Modelled from the spec: `constrainToBoundary(maxX, maxY, origin)` clamps the
size down if it exceeds the container, then clamps the position so the box stays
fully inside `[0, maxX] × [0, maxY]`, preserving the anchor where possible
(spec section 4.1). -/
def Box.constrainToBoundary (b : Box) (maxX maxY : ℚ) (origin : XY) : Box :=
  let w := rmin b.width maxX
  let h := rmin b.height maxY
  let ax := b.x + origin.x * (b.width - w)
  let ay := b.y + origin.y * (b.height - h)
  ⟨clamp ax 0 (maxX - w), clamp ay 0 (maxY - h), w, h⟩

/-- Source `box.toBounds()`: the `{position, size}` snapshot handed to `setCrop`. -/
def Box.toBounds (b : Box) : Crop :=
  ⟨⟨b.x, b.y⟩, ⟨b.width, b.height⟩⟩

/-- The invariant the spec states for the committed crop (spec section 3):
minimum size on both axes and full containment in `[0, mapped.x] × [0, mapped.y]`. -/
def CropInv (mapped : XY) (c : Crop) : Prop :=
  (minSize mapped).x ≤ c.size.x ∧ (minSize mapped).y ≤ c.size.y ∧
  0 ≤ c.position.x ∧ 0 ≤ c.position.y ∧
  c.position.x + c.size.x ≤ mapped.x ∧ c.position.y + c.size.y ≤ mapped.y

instance (mapped : XY) (c : Crop) : Decidable (CropInv mapped c) := by
  unfold CropInv; infer_instance

/-- The crop invariant with the minimum-width floor weakened to positivity:
this is what the ratio-snap override of `handleResizeMove` still guarantees. -/
def WeakCropInv (mapped : XY) (c : Crop) : Prop :=
  0 < c.size.x ∧ (minSize mapped).y ≤ c.size.y ∧
  0 ≤ c.position.x ∧ 0 ≤ c.position.y ∧
  c.position.x + c.size.x ≤ mapped.x ∧ c.position.y + c.size.y ≤ mapped.y

/-- Source `handleDrag` step (Cropper.tsx lines 260-279; the single-touch drag of
lines 401-426 performs the same computation): the container-space delta
`(ddx, ddy)` is divided by the scale factors, and the box is moved with its new
position clamped into `[0, mapped - size]`.  `sf` is the scale-factor value the
handler closure uses for this event (captured at gesture start, see
`dragGestureCode`). -/
def handleDrag (c : Crop) (mapped sf : XY) (ddx ddy : ℚ) : Crop :=
  let dx := ddx / sf.x
  let dy := ddy / sf.y
  let box := Box.ofCrop c
  let box := box.move (clamp (box.x + dx) 0 (mapped.x - box.width))
    (clamp (box.y + dy) 0 (mapped.y - box.height))
  box.toBounds

/-- Source `velocity` of the modifier-held wheel branch (Cropper.tsx line 302):
`Math.max(0.001, Math.abs(event.deltaY) * 0.001)`. -/
def wheelVelocity (deltaY : ℚ) : ℚ :=
  rmax (1/1000) (|deltaY| * (1/1000))

/-- Source `scale` of the modifier-held wheel branch (Cropper.tsx line 303):
`1 - event.deltaY * velocity`. -/
def wheelScaleFactor (deltaY : ℚ) : ℚ :=
  1 - deltaY * wheelVelocity deltaY

/-- Source `handleWheel`, `ctrlKey` branch (Cropper.tsx lines 299-312): resize
from center by the wheel scale factor, each dimension clamped into
`[minSize, mapped]`, then the boundary constraint from the center origin. -/
def handleWheelScale (c : Crop) (mapped : XY) (deltaY : ℚ) : Crop :=
  let box := Box.ofCrop c
  let scale := wheelScaleFactor deltaY
  let box := box.resize (clamp (box.width * scale) (minSize mapped).x mapped.x)
    (clamp (box.height * scale) (minSize mapped).y mapped.y) ⟨1/2, 1/2⟩
  let box := box.constrainToBoundary mapped.x mapped.y ⟨1/2, 1/2⟩
  box.toBounds

/-- Source `handleWheel`, non-modifier branch (Cropper.tsx lines 313-323): a pan
on both axes with a velocity proportional to `|deltaY|` (floored at 1), the new
position clamped into `[0, mapped - size]`. -/
def handleWheelPan (c : Crop) (mapped sf : XY) (deltaX deltaY : ℚ) : Crop :=
  let velocity := rmax 1 (|deltaY| * (1/100))
  let dx := (-deltaX * velocity) / sf.x
  let dy := (-deltaY * velocity) / sf.y
  let box := Box.ofCrop c
  let box := box.move (clamp (box.x + dx) 0 (mapped.x - box.width))
    (clamp (box.y + dy) 0 (mapped.y - box.height))
  box.toBounds

/-- Source `handleTouchMove`, two-finger branch (Cropper.tsx lines 358-400):
pinch scale relative to the distance at touch start, preserving the current
width/height ratio with a bounds adjustment, resize from center, then a pan by
the movement of the midpoint of the two touches.  `lastCenter` is the stored
touch center: a two-finger move is always preceded by the two-finger
`touchstart` (lines 337-344), which records it, so it is present here.
`pinchDims` is the dimension computation (lines 366-379): scale the width
recorded at touch start, derive the height from the current width/height ratio,
and re-derive the width if the height had to be clamped. -/
def pinchDims (c : Crop) (mapped : XY) (initialWidth scale : ℚ) : ℚ × ℚ :=
  let currentRatio := c.size.x / c.size.y
  let newWidth := clamp (initialWidth * scale) (minSize mapped).x mapped.x
  let newHeight := newWidth / currentRatio
  if newHeight < (minSize mapped).y ∨ mapped.y < newHeight then
    let nh := clamp newHeight (minSize mapped).y mapped.y
    (nh * currentRatio, nh)
  else (newWidth, newHeight)

/-- Source `handleTouchMove`, two-finger branch, continued: the combined resize
from center and midpoint pan. -/
def handleTouchPinchPan (c : Crop) (mapped sf : XY) (initialPinchDistance currentDistance : ℚ)
    (initialWidth : ℚ) (lastCenter center : XY) : Crop :=
  let scale := currentDistance / initialPinchDistance
  let box := Box.ofCrop c
  let wh := pinchDims c mapped initialWidth scale
  let box := box.resize wh.1 wh.2 ⟨1/2, 1/2⟩
  let dx := (center.x - lastCenter.x) / sf.x
  let dy := (center.y - lastCenter.y) / sf.y
  let box := box.move (clamp (box.x + dx) 0 (mapped.x - box.width))
    (clamp (box.y + dy) 0 (mapped.y - box.height))
  box.toBounds

/-- The eight handle directions of the source (`type Direction`, Cropper.tsx line 36). -/
inductive Direction where
  | n | e | s | w | nw | ne | se | sw
deriving DecidableEq, Repr

/-- Source `dir.includes("n")`. -/
def Direction.incN : Direction → Bool
  | .n | .nw | .ne => true
  | _ => false

/-- Source `dir.includes("e")`. -/
def Direction.incE : Direction → Bool
  | .e | .ne | .se => true
  | _ => false

/-- Source `dir.includes("s")`. -/
def Direction.incS : Direction → Bool
  | .s | .se | .sw => true
  | _ => false

/-- Source `dir.includes("w")`. -/
def Direction.incW : Direction → Bool
  | .w | .nw | .sw => true
  | _ => false

/-- Source `dir.length === 2`: the four corner directions have two letters. -/
def Direction.isCorner : Direction → Bool
  | .nw | .ne | .se | .sw => true
  | _ => false

/-- Source truthiness of `props.aspectRatio` (an optional number; `undefined`
and `0` are falsy in JS). -/
def aspectConfigured : Option ℚ → Bool
  | none => false
  | some a => a != 0

/-- Source catalog `COMMON_RATIOS` (Cropper.tsx lines 56-63). -/
def COMMON_RATIOS : List (ℤ × ℤ) :=
  [(1, 1), (4, 3), (3, 2), (16, 9), (2, 1), (21, 9)]

/-- The scan loop of `findClosestRatio` (Cropper.tsx lines 563-570): first
catalog entry whose value or inverse is within `threshold` of `currentRatio`. -/
def findRatioIn (currentRatio threshold : ℚ) : List (ℤ × ℤ) → Option (ℤ × ℤ)
  | [] => none
  | r :: rest =>
    if |currentRatio - (r.1 : ℚ) / (r.2 : ℚ)| < threshold then some (r.1, r.2)
    else if |currentRatio - (r.2 : ℚ) / (r.1 : ℚ)| < threshold then some (r.2, r.1)
    else findRatioIn currentRatio threshold rest

/-- Source `findClosestRatio` (Cropper.tsx lines 556-572); the default threshold
is 1% and the catalog is never consulted when an aspect ratio is configured. -/
def findClosestRatio (aspectRatio : Option ℚ) (width height threshold : ℚ) : Option (ℤ × ℤ) :=
  if aspectConfigured aspectRatio then none
  else findRatioIn (width / height) threshold COMMON_RATIOS

/-- The value `setSnappedRatio` receives in `handleResizeMove` (Cropper.tsx
lines 523-537): the catalog match when the direction is a corner and snapping is
enabled, otherwise `null`. -/
def snapResult (aspectRatio : Option ℚ) (snapEnabled : Bool) (dir : Direction)
    (newWidth newHeight : ℚ) : Option (ℤ × ℤ) :=
  if dir.isCorner ∧ snapEnabled then
    findClosestRatio aspectRatio newWidth newHeight (1/100)
  else none

/-- The clamped raw width of `handleResizeMove` (Cropper.tsx lines 501-510):
the x-axis delta applied when the direction has an east/west component, clamped
into `[minSize.x, mapped.x]`; the current width otherwise. -/
def resizeRawWidth (dir : Direction) (centerOrigin : Bool) (c : Crop) (mapped sf : XY)
    (ddx : ℚ) : ℚ :=
  let dx := ddx / sf.x
  let scaleMultiplier : ℚ := if centerOrigin then 2 else 1
  if dir.incE ∨ dir.incW then
    clamp (if dir.incW then c.size.x - dx * scaleMultiplier
      else c.size.x + dx * scaleMultiplier) (minSize mapped).x mapped.x
  else c.size.x

/-- The clamped raw height of `handleResizeMove` (Cropper.tsx lines 512-521). -/
def resizeRawHeight (dir : Direction) (centerOrigin : Bool) (c : Crop) (mapped sf : XY)
    (ddy : ℚ) : ℚ :=
  let dy := ddy / sf.y
  let scaleMultiplier : ℚ := if centerOrigin then 2 else 1
  if dir.incN ∨ dir.incS then
    clamp (if dir.incN then c.size.y - dy * scaleMultiplier
      else c.size.y + dy * scaleMultiplier) (minSize mapped).y mapped.y
  else c.size.y

/-- Source `handleResizeMove` (Cropper.tsx lines 487-546).  The per-axis raw
resize is clamped into `[minSize, mapped]`; the snap override (corner + snap
enabled + catalog match) recomputes the width from the height (every corner
direction contains `n` or `s`); then `resize` anchored at the origin implied by
the handle (opposite corner, or center when the alt modifier is held, with the
delta doubled), then the boundary constraint.  `sf` is the scale-factor value
captured at `handleResizeStart` (lines 447-449). -/
def handleResizeMove (aspectRatio : Option ℚ) (snapEnabled : Bool) (dir : Direction)
    (centerOrigin : Bool) (c : Crop) (mapped sf : XY) (ddx ddy : ℚ) : Crop :=
  let origin : XY := ⟨if dir.incW then 1 else 0, if dir.incN then 1 else 0⟩
  let box := Box.ofCrop c
  let newWidth := resizeRawWidth dir centerOrigin c mapped sf ddx
  let newHeight := resizeRawHeight dir centerOrigin c mapped sf ddy
  let wh : ℚ × ℚ :=
    match snapResult aspectRatio snapEnabled dir newWidth newHeight with
    | some r =>
      if dir.incN ∨ dir.incS then (newHeight * ((r.1 : ℚ) / (r.2 : ℚ)), newHeight)
      else (newWidth, newWidth / ((r.1 : ℚ) / (r.2 : ℚ)))
    | none => (newWidth, newHeight)
  let newOrigin := if centerOrigin then (⟨1/2, 1/2⟩ : XY) else origin
  let box := box.resize wh.1 wh.2 newOrigin
  let box := box.constrainToBoundary mapped.x mapped.y newOrigin
  box.toBounds

/-- Source `handleKeyDown` (Cropper.tsx lines 574-651) after the key mapping:
`dir` is one of the four cardinal directions of `KEY_MAPPINGS`.  With a
command/control modifier the arrows resize (clamped per axis, anchored top-left
or center with alt, doubled with alt); otherwise they move by the step (5, or 20
with shift) divided by the scale factors; both branches end with the boundary
constraint from the same origin. -/
def handleKeyDown (dir : Direction) (shiftKey altKey cmdOrCtrl : Bool)
    (c : Crop) (mapped sf : XY) : Crop :=
  let moveDelta : ℚ := if shiftKey then 20 else 5
  let origin : XY := if altKey then ⟨1/2, 1/2⟩ else ⟨0, 0⟩
  let box := Box.ofCrop c
  let box :=
    if cmdOrCtrl then
      let scaleMultiplier : ℚ := if altKey then 2 else 1
      let currentBox := box.toBounds
      let newWidth :=
        if dir.incE ∨ dir.incW then
          clamp (if dir.incW then currentBox.size.x - moveDelta * scaleMultiplier
            else currentBox.size.x + moveDelta * scaleMultiplier) (minSize mapped).x mapped.x
        else currentBox.size.x
      let newHeight :=
        if dir.incN ∨ dir.incS then
          clamp (if dir.incN then currentBox.size.y - moveDelta * scaleMultiplier
            else currentBox.size.y + moveDelta * scaleMultiplier) (minSize mapped).y mapped.y
        else currentBox.size.y
      box.resize newWidth newHeight origin
    else
      let dx := (if dir.incE then moveDelta else if dir.incW then -moveDelta else 0) / sf.x
      let dy := (if dir.incS then moveDelta else if dir.incN then -moveDelta else 0) / sf.y
      box.move (clamp (box.x + dx) 0 (mapped.x - box.width))
        (clamp (box.y + dy) 0 (mapped.y - box.height))
  let box := box.constrainToBoundary mapped.x mapped.y origin
  box.toBounds

/-- The two placement states of the recording-box overlay (source signal
`recordingBoxPosition`, Cropper.tsx lines 739-741).  The default, switch-back
side `bottom` is the spec's "trailing" side and `top` its "leading" side. -/
inductive BoxPos where
  | bottom | top
deriving DecidableEq, Repr

/-- Source `updateRecordingBoxPosition` (Cropper.tsx lines 818-882): the
placement decision as a function of the current position and the measured
spaces.  `some p` means a (debounced) switch to `p` is scheduled; `none` means
no position change is scheduled.  The triggering margin is 40 and the
switch-back hysteresis margin is 50. -/
def updateRecordingBoxPosition (current : BoxPos) (bottomSpace topSpace boxHeight : ℚ) :
    Option BoxPos :=
  match current with
  | .bottom =>
    if bottomSpace < boxHeight + 40 then
      if boxHeight + 40 < topSpace then some .top
      else if bottomSpace < topSpace then some .top
      else none
    else none
  | .top =>
    if topSpace < boxHeight + 40 then
      if boxHeight + 40 < bottomSpace then some .bottom
      else if topSpace < bottomSpace then some .bottom
      else none
    else if boxHeight + 50 < bottomSpace then some .bottom
    else none

/-- The maximal run of decimal digits at the head of the character list
(what `parseInt` consumes after sign handling). -/
def takeDigits : List Char → List Char
  | [] => []
  | ch :: rest => if ch.isDigit then ch :: takeDigits rest else []

/-- Numeric value of a list of decimal digits. -/
def digitsVal (ds : List Char) : ℕ :=
  ds.foldl (fun acc ch => 10 * acc + (ch.toNat - 48)) 0

/-- JS `parseInt(s)` on the decimal strings the numeric text inputs produce:
leading whitespace skipped, an optional sign, then the maximal digit run;
`none` models the `NaN` result when no digit is found. -/
def jsParseInt (s : String) : Option ℤ :=
  let cs := s.data.dropWhile (fun ch => ch.isWhitespace)
  let signed : ℤ × List Char :=
    match cs with
    | '-' :: rest => (-1, rest)
    | '+' :: rest => (1, rest)
    | _ => (1, cs)
  let ds := takeDigits signed.2
  if ds.isEmpty then none else some (signed.1 * (digitsVal ds : ℤ))

/-- Source `handleSizeXChange` (Cropper.tsx lines 684-697): a parsed value of at
least 50 is committed as the new `size.x` with no further constraint; otherwise
the committed geometry is unchanged. -/
def handleSizeXChange (c : Crop) (s : String) : Crop :=
  match jsParseInt s with
  | some v => if 50 ≤ v then ⟨c.position, ⟨(v : ℚ), c.size.y⟩⟩ else c
  | none => c

/-- Source `handleSizeYChange` (Cropper.tsx lines 699-712). -/
def handleSizeYChange (c : Crop) (s : String) : Crop :=
  match jsParseInt s with
  | some v => if 50 ≤ v then ⟨c.position, ⟨c.size.x, (v : ℚ)⟩⟩ else c
  | none => c

/-- The axis argument of `handlePositionChange`. -/
inductive Axis where
  | x | y
deriving DecidableEq, Repr

/-- Source `handlePositionChange` (Cropper.tsx lines 714-735): a parsed value of
at least 0 is committed as the new position on the given axis, size unchanged;
otherwise the committed geometry is unchanged. -/
def handlePositionChange (axis : Axis) (c : Crop) (s : String) : Crop :=
  match jsParseInt s with
  | some v =>
    if 0 ≤ v then
      match axis with
      | .x => ⟨⟨(v : ℚ), c.position.y⟩, c.size⟩
      | .y => ⟨⟨c.position.x, (v : ℚ)⟩, c.size⟩
    else c
  | none => c

/-- One `mousemove` of a drag gesture: the container-space delta it carries and
the value `containerToMappedSizeScale()` has at the moment the event fires. -/
structure DragEvent where
  ddx : ℚ
  ddy : ℚ
  sfAtEvent : XY
deriving DecidableEq, Repr

/-- Source drag gesture (Cropper.tsx lines 244-292): `handleDragStart` reads the
scale factors once (`const scaleFactors = containerToMappedSizeScale()`, line
258) and every `handleDrag` move of that gesture uses this captured value. -/
def dragGestureCode (sfAtStart : XY) (c : Crop) (mapped : XY) (events : List DragEvent) : Crop :=
  events.foldl (fun acc e => handleDrag acc mapped sfAtStart e.ddx e.ddy) c

/-- Follows the spec's words (section 4.2), as the refinement target for the
scale-factor claim: "consumers must always re-read current factors rather than
caching them across gesture lifetimes", so each event's delta is converted with
the factors current at that event. -/
def dragGestureSpec (c : Crop) (mapped : XY) (events : List DragEvent) : Crop :=
  events.foldl (fun acc e => handleDrag acc mapped e.sfAtEvent e.ddx e.ddy) c

/-- A symbolic IEEE-double value for the non-finite-delta claim: a finite
rational, the two infinities, or `NaN`.  Signed zeros are collapsed to `0`,
which the operations used here never distinguish. -/
inductive FVal where
  | fin (q : ℚ) | inf | ninf | nan
deriving DecidableEq, Repr

/-- IEEE addition on `FVal`: `NaN` is contagious and `∞ + (-∞) = NaN`. -/
def FVal.add : FVal → FVal → FVal
  | .fin a, .fin b => .fin (a + b)
  | .nan, _ => .nan
  | _, .nan => .nan
  | .inf, .ninf => .nan
  | .ninf, .inf => .nan
  | .inf, _ => .inf
  | _, .inf => .inf
  | .ninf, _ => .ninf
  | _, .ninf => .ninf

/-- IEEE subtraction on `FVal` (only the cases the drag handler exercises). -/
def FVal.sub : FVal → FVal → FVal
  | .fin a, .fin b => .fin (a - b)
  | .nan, _ => .nan
  | _, .nan => .nan
  | .inf, .inf => .nan
  | .ninf, .ninf => .nan
  | .inf, _ => .inf
  | .ninf, _ => .ninf
  | .fin _, .inf => .ninf
  | .fin _, .ninf => .inf

/-- IEEE division on `FVal` by a finite value; division of a finite value by
zero carries the numerator's sign to an infinity, `0/0` is `NaN`. -/
def FVal.div : FVal → FVal → FVal
  | .nan, _ => .nan
  | _, .nan => .nan
  | .fin a, .fin b =>
    if b = 0 then (if a = 0 then .nan else if 0 < a then .inf else .ninf)
    else .fin (a / b)
  | .inf, .fin b => if b < 0 then .ninf else .inf
  | .ninf, .fin b => if b < 0 then .inf else .ninf
  | .fin _, .inf => .fin 0
  | .fin _, .ninf => .fin 0
  | .inf, .inf => .nan
  | .inf, .ninf => .nan
  | .ninf, .inf => .nan
  | .ninf, .ninf => .nan

/-- JS `Math.min` on `FVal`: any `NaN` argument gives `NaN`. -/
def FVal.jsMin : FVal → FVal → FVal
  | .nan, _ => .nan
  | _, .nan => .nan
  | .fin a, .fin b => .fin (rmin a b)
  | .ninf, _ => .ninf
  | _, .ninf => .ninf
  | .inf, b => b
  | a, .inf => a

/-- JS `Math.max` on `FVal`: any `NaN` argument gives `NaN`. -/
def FVal.jsMax : FVal → FVal → FVal
  | .nan, _ => .nan
  | _, .nan => .nan
  | .fin a, .fin b => .fin (rmax a b)
  | .inf, _ => .inf
  | _, .inf => .inf
  | .ninf, b => b
  | a, .ninf => a

/-- Source `clamp` over `FVal`: `Math.max(lo, Math.min(hi, n))`. -/
def FVal.clampF (n lo hi : FVal) : FVal :=
  FVal.jsMax lo (FVal.jsMin hi n)

/-- Source `handleDrag` (Cropper.tsx lines 260-279) over `FVal` for a crop whose
stored coordinates are finite: the committed position after one move event with
container-space delta `(ddx, ddy)`; the size is left unchanged by `move`.  No
finiteness check appears anywhere on this path. -/
def handleDragF (c : Crop) (mapped sf : XY) (ddx ddy : FVal) : FVal × FVal :=
  let dx := ddx.div (.fin sf.x)
  let dy := ddy.div (.fin sf.y)
  let nx := FVal.clampF ((FVal.fin c.position.x).add dx) (.fin 0) (.fin (mapped.x - c.size.x))
  let ny := FVal.clampF ((FVal.fin c.position.y).add dy) (.fin 0) (.fin (mapped.y - c.size.y))
  (nx, ny)

theorem rmin_eq_min (a b : ℚ) : rmin a b = min a b :=
  (min_def a b).symm

theorem rmax_eq_max (a b : ℚ) : rmax a b = max a b :=
  (max_def a b).symm

theorem le_clamp (n lo hi : ℚ) : lo ≤ clamp n lo hi := by
  rw [clamp, rmax_eq_max]
  exact le_max_left _ _

theorem clamp_le (n lo hi : ℚ) (h : lo ≤ hi) : clamp n lo hi ≤ hi := by
  rw [clamp, rmax_eq_max, rmin_eq_min]
  exact max_le h (min_le_left _ _)

theorem clamp_eq_lo (n lo hi : ℚ) (h1 : n ≤ lo) (h2 : n ≤ hi) : clamp n lo hi = lo := by
  rw [clamp, rmax_eq_max, rmin_eq_min, min_eq_right h2, max_eq_left h1]

theorem clamp_eq_hi (n lo hi : ℚ) (h1 : hi ≤ n) (h2 : lo ≤ hi) : clamp n lo hi = hi := by
  rw [clamp, rmax_eq_max, rmin_eq_min, min_eq_left h1, max_eq_right h2]

theorem minSize_x_pos (m : XY) (h : 0 < m.x) : 0 < (minSize m).x := by
  simp only [minSize, rmin_eq_min, lt_min_iff]
  constructor <;> [norm_num; linarith]

theorem minSize_y_pos (m : XY) (h : 0 < m.y) : 0 < (minSize m).y := by
  simp only [minSize, rmin_eq_min, lt_min_iff]
  constructor <;> [norm_num; linarith]

theorem minSize_x_le (m : XY) (h : 0 ≤ m.x) : (minSize m).x ≤ m.x := by
  simp only [minSize, rmin_eq_min]
  exact le_trans (min_le_right _ _) (by linarith)

theorem minSize_y_le (m : XY) (h : 0 ≤ m.y) : (minSize m).y ≤ m.y := by
  simp only [minSize, rmin_eq_min]
  exact le_trans (min_le_right _ _) (by linarith)

theorem constrainToBoundary_width (b : Box) (mx my : ℚ) (o : XY) :
    (b.constrainToBoundary mx my o).width = rmin b.width mx := rfl

theorem constrainToBoundary_height (b : Box) (mx my : ℚ) (o : XY) :
    (b.constrainToBoundary mx my o).height = rmin b.height my := rfl

theorem constrainToBoundary_x (b : Box) (mx my : ℚ) (o : XY) :
    0 ≤ (b.constrainToBoundary mx my o).x ∧
    (b.constrainToBoundary mx my o).x + (b.constrainToBoundary mx my o).width ≤ mx := by
  have hw : rmin b.width mx ≤ mx := by rw [rmin_eq_min]; exact min_le_right _ _
  refine ⟨le_clamp _ _ _, ?_⟩
  have := clamp_le (b.x + o.x * (b.width - rmin b.width mx)) 0 (mx - rmin b.width mx)
    (by linarith)
  show clamp _ 0 (mx - rmin b.width mx) + rmin b.width mx ≤ mx
  linarith

theorem constrainToBoundary_y (b : Box) (mx my : ℚ) (o : XY) :
    0 ≤ (b.constrainToBoundary mx my o).y ∧
    (b.constrainToBoundary mx my o).y + (b.constrainToBoundary mx my o).height ≤ my := by
  have hh : rmin b.height my ≤ my := by rw [rmin_eq_min]; exact min_le_right _ _
  refine ⟨le_clamp _ _ _, ?_⟩
  have := clamp_le (b.y + o.y * (b.height - rmin b.height my)) 0 (my - rmin b.height my)
    (by linarith)
  show clamp _ 0 (my - rmin b.height my) + rmin b.height my ≤ my
  linarith

/-- A box whose dimensions already lie in `[minSize, mapped]` satisfies the full
crop invariant after the boundary constraint. -/
theorem resizeBoundary_inv (m : XY) (b : Box) (o : XY)
    (h1 : (minSize m).x ≤ b.width) (h2 : b.width ≤ m.x)
    (h3 : (minSize m).y ≤ b.height) (h4 : b.height ≤ m.y) :
    CropInv m ((b.constrainToBoundary m.x m.y o).toBounds) := by
  have hw : rmin b.width m.x = b.width := by rw [rmin_eq_min]; exact min_eq_left h2
  have hh : rmin b.height m.y = b.height := by rw [rmin_eq_min]; exact min_eq_left h4
  have hx := constrainToBoundary_x b m.x m.y o
  have hy := constrainToBoundary_y b m.x m.y o
  have hwidth := constrainToBoundary_width b m.x m.y o
  have hheight := constrainToBoundary_height b m.x m.y o
  refine ⟨?_, ?_, hx.1, hy.1, ?_, ?_⟩ <;>
    simp only [Box.toBounds, hwidth, hheight, hw, hh]
  · exact h1
  · exact h3
  · have := hx.2; rw [hwidth, hw] at this; exact this
  · have := hy.2; rw [hheight, hh] at this; exact this

/-- A box whose height lies in `[minSize.y, mapped.y]` and whose width is
positive satisfies the weakened invariant after the boundary constraint. -/
theorem resizeBoundary_weak (m : XY) (b : Box) (o : XY) (hmx : 0 < m.x)
    (hwpos : 0 < b.width) (h3 : (minSize m).y ≤ b.height) (h4 : b.height ≤ m.y) :
    WeakCropInv m ((b.constrainToBoundary m.x m.y o).toBounds) := by
  have hh : rmin b.height m.y = b.height := by rw [rmin_eq_min]; exact min_eq_left h4
  have hw : 0 < rmin b.width m.x := by rw [rmin_eq_min]; exact lt_min hwpos hmx
  have hx := constrainToBoundary_x b m.x m.y o
  have hy := constrainToBoundary_y b m.x m.y o
  have hwidth := constrainToBoundary_width b m.x m.y o
  have hheight := constrainToBoundary_height b m.x m.y o
  refine ⟨?_, ?_, hx.1, hy.1, ?_, ?_⟩ <;>
    simp only [Box.toBounds, hwidth, hheight, hh]
  · exact hw
  · exact h3
  · have := hx.2; rw [hwidth] at this; exact this
  · have := hy.2; rw [hheight, hh] at this; exact this

/-- The move-with-clamp pattern shared by drag, wheel pan, touch pan and
keyboard move: clamping the position into `[0, mapped - size]` restores the
invariant whenever the dimensions lie in `[minSize, mapped]`. -/
theorem moveClamp_inv (m : XY) (w h px py : ℚ)
    (h1 : (minSize m).x ≤ w) (h2 : w ≤ m.x) (h3 : (minSize m).y ≤ h) (h4 : h ≤ m.y) :
    CropInv m ⟨⟨clamp px 0 (m.x - w), clamp py 0 (m.y - h)⟩, ⟨w, h⟩⟩ := by
  have cx := clamp_le px 0 (m.x - w) (by linarith)
  have cy := clamp_le py 0 (m.y - h) (by linarith)
  exact ⟨h1, h3, le_clamp _ _ _, le_clamp _ _ _, by linarith, by linarith⟩

theorem handleDrag_inv (m : XY) (c : Crop) (sf : XY) (ddx ddy : ℚ)
    (hc : CropInv m c) : CropInv m (handleDrag c m sf ddx ddy) := by
  obtain ⟨h1, h2, h3, h4, h5, h6⟩ := hc
  simp only [handleDrag, Box.ofCrop, Box.move, Box.toBounds]
  exact moveClamp_inv m _ _ _ _ h1 (by linarith) h2 (by linarith)

theorem handleWheelPan_inv (m : XY) (c : Crop) (sf : XY) (deltaX deltaY : ℚ)
    (hc : CropInv m c) : CropInv m (handleWheelPan c m sf deltaX deltaY) := by
  obtain ⟨h1, h2, h3, h4, h5, h6⟩ := hc
  simp only [handleWheelPan, Box.ofCrop, Box.move, Box.toBounds]
  exact moveClamp_inv m _ _ _ _ h1 (by linarith) h2 (by linarith)

theorem handleWheelScale_inv (m : XY) (c : Crop) (deltaY : ℚ)
    (hx : 0 < m.x) (hy : 0 < m.y) : CropInv m (handleWheelScale c m deltaY) := by
  simp only [handleWheelScale, Box.ofCrop, Box.resize]
  exact resizeBoundary_inv m _ _ (le_clamp _ _ _) (clamp_le _ _ _ (minSize_x_le m hx.le))
    (le_clamp _ _ _) (clamp_le _ _ _ (minSize_y_le m hy.le))

theorem ite_clamp_lo (P : Prop) [Decidable P] (e v lo hi : ℚ) (h : lo ≤ v) :
    lo ≤ if P then clamp e lo hi else v := by
  split_ifs
  exacts [le_clamp _ _ _, h]

theorem ite_clamp_hi (P : Prop) [Decidable P] (e v lo hi : ℚ) (h1 : v ≤ hi) (h2 : lo ≤ hi) :
    (if P then clamp e lo hi else v) ≤ hi := by
  split_ifs
  exacts [clamp_le _ _ _ h2, h1]

theorem handleKeyDown_inv (dir : Direction) (sh al cmd : Bool) (m : XY) (c : Crop) (sf : XY)
    (hx : 0 < m.x) (hy : 0 < m.y) (hc : CropInv m c) :
    CropInv m (handleKeyDown dir sh al cmd c m sf) := by
  obtain ⟨h1, h2, h3, h4, h5, h6⟩ := hc
  cases cmd
  · simp only [handleKeyDown, Box.ofCrop, Box.move, Box.toBounds, Bool.false_eq_true,
      if_false]
    exact resizeBoundary_inv m _ _ h1 (by linarith) h2 (by linarith)
  · simp only [handleKeyDown, Box.ofCrop, Box.resize, Box.toBounds, eq_self_iff_true,
      if_true]
    exact resizeBoundary_inv m _ _
      (ite_clamp_lo _ _ _ _ _ h1)
      (ite_clamp_hi _ _ _ _ _ (by linarith) (minSize_x_le m hx.le))
      (ite_clamp_lo _ _ _ _ _ h2)
      (ite_clamp_hi _ _ _ _ _ (by linarith) (minSize_y_le m hy.le))

theorem pinchDims_bounds (m : XY) (c : Crop) (iw scl : ℚ)
    (hx : 0 < m.x) (hy : 0 < m.y) (hc : CropInv m c) :
    (minSize m).x ≤ (pinchDims c m iw scl).1 ∧ (pinchDims c m iw scl).1 ≤ m.x ∧
    (minSize m).y ≤ (pinchDims c m iw scl).2 ∧ (pinchDims c m iw scl).2 ≤ m.y := by
  obtain ⟨hsx1, hsy1, hpx, hpy, hpsx, hpsy⟩ := hc
  have hsx2 : c.size.x ≤ m.x := by linarith
  have hsy2 : c.size.y ≤ m.y := by linarith
  have hmnx := minSize_x_pos m hx
  have hmny := minSize_y_pos m hy
  have hmnxle := minSize_x_le m hx.le
  have hmnyle := minSize_y_le m hy.le
  have hsxpos : 0 < c.size.x := lt_of_lt_of_le hmnx hsx1
  have hsypos : 0 < c.size.y := lt_of_lt_of_le hmny hsy1
  have hrpos : 0 < c.size.x / c.size.y := div_pos hsxpos hsypos
  simp only [pinchDims]
  set mnX := (minSize m).x with hmnXdef
  set mnY := (minSize m).y with hmnYdef
  set r := c.size.x / c.size.y with hrdef
  set w1 := clamp (iw * scl) mnX m.x with hw1def
  have hw1lo : mnX ≤ w1 := le_clamp _ _ _
  have hw1hi : w1 ≤ m.x := clamp_le _ _ _ hmnxle
  split_ifs with hcond
  · rcases hcond with hlt | hgt
    · have hcl : clamp (w1 / r) mnY m.y = mnY :=
        clamp_eq_lo _ _ _ hlt.le (by linarith)
      have hup : w1 < mnY * r := (div_lt_iff₀ hrpos).mp hlt
      have hprod : mnY * r ≤ m.x := by
        rw [hrdef, ← mul_div_assoc, div_le_iff₀ hsypos]
        have := mul_le_mul hsy1 hsx2 hsxpos.le hsypos.le
        linarith
      rw [hcl]
      show mnX ≤ mnY * r ∧ mnY * r ≤ m.x ∧ mnY ≤ mnY ∧ mnY ≤ m.y
      exact ⟨by linarith, hprod, le_refl _, hmnyle⟩
    · have hcl : clamp (w1 / r) mnY m.y = m.y :=
        clamp_eq_hi _ _ _ hgt.le hmnyle
      have hlow : mnX ≤ m.y * r := by
        rw [hrdef, ← mul_div_assoc, le_div_iff₀ hsypos]
        have := mul_le_mul hsx1 hsy2 hsypos.le hsxpos.le
        linarith
      have hup : m.y * r < w1 := (lt_div_iff₀ hrpos).mp hgt
      rw [hcl]
      show mnX ≤ m.y * r ∧ m.y * r ≤ m.x ∧ mnY ≤ m.y ∧ m.y ≤ m.y
      exact ⟨hlow, by linarith, hmnyle, le_refl _⟩
  · push_neg at hcond
    exact ⟨hw1lo, hw1hi, hcond.1, hcond.2⟩


theorem handleTouchPinchPan_inv (m : XY) (c : Crop) (sf : XY) (ipd cd iw : ℚ)
    (lastCenter center : XY) (hx : 0 < m.x) (hy : 0 < m.y) (hc : CropInv m c) :
    CropInv m (handleTouchPinchPan c m sf ipd cd iw lastCenter center) := by
  have hb := pinchDims_bounds m c iw (cd / ipd) hx hy hc
  simp only [handleTouchPinchPan, Box.ofCrop, Box.resize, Box.move, Box.toBounds]
  exact moveClamp_inv m _ _ _ _ hb.1 hb.2.1 hb.2.2.1 hb.2.2.2

theorem findRatioIn_pos (cr th : ℚ) (l : List (ℤ × ℤ))
    (hl : ∀ p ∈ l, 0 < p.1 ∧ 0 < p.2) (q : ℤ × ℤ) (hq : findRatioIn cr th l = some q) :
    0 < q.1 ∧ 0 < q.2 := by
  induction l with
  | nil => exact absurd hq (by simp [findRatioIn])
  | cons r rest ih =>
    have hr := hl r (List.mem_cons_self r rest)
    rw [findRatioIn] at hq
    split_ifs at hq
    · cases hq; exact hr
    · cases hq; exact ⟨hr.2, hr.1⟩
    · exact ih (fun p hp => hl p (List.mem_cons_of_mem r hp)) hq

theorem snapResult_pos (ar : Option ℚ) (sn : Bool) (dir : Direction) (w h : ℚ)
    (q : ℤ × ℤ) (hq : snapResult ar sn dir w h = some q) : 0 < q.1 ∧ 0 < q.2 := by
  rw [snapResult] at hq
  split_ifs at hq
  rw [findClosestRatio] at hq
  split_ifs at hq
  exact findRatioIn_pos _ _ COMMON_RATIOS (by decide) q hq

theorem snapResult_corner (ar : Option ℚ) (sn : Bool) (dir : Direction) (w h : ℚ)
    (q : ℤ × ℤ) (hq : snapResult ar sn dir w h = some q) : dir.isCorner = true := by
  rw [snapResult] at hq
  split_ifs at hq with hcond
  exact hcond.1

theorem corner_ns (dir : Direction) (h : dir.isCorner = true) :
    dir.incN = true ∨ dir.incS = true := by
  cases dir <;> simp_all [Direction.isCorner, Direction.incN, Direction.incS]

theorem resizeRawWidth_bounds (dir : Direction) (co : Bool) (c : Crop) (m sf : XY) (ddx : ℚ)
    (hx : 0 < m.x) (h1 : (minSize m).x ≤ c.size.x) (h2 : c.size.x ≤ m.x) :
    (minSize m).x ≤ resizeRawWidth dir co c m sf ddx ∧ resizeRawWidth dir co c m sf ddx ≤ m.x := by
  simp only [resizeRawWidth]
  exact ⟨ite_clamp_lo _ _ _ _ _ h1, ite_clamp_hi _ _ _ _ _ h2 (minSize_x_le m hx.le)⟩

theorem resizeRawHeight_bounds (dir : Direction) (co : Bool) (c : Crop) (m sf : XY) (ddy : ℚ)
    (hy : 0 < m.y) (h1 : (minSize m).y ≤ c.size.y) (h2 : c.size.y ≤ m.y) :
    (minSize m).y ≤ resizeRawHeight dir co c m sf ddy ∧
    resizeRawHeight dir co c m sf ddy ≤ m.y := by
  simp only [resizeRawHeight]
  exact ⟨ite_clamp_lo _ _ _ _ _ h1, ite_clamp_hi _ _ _ _ _ h2 (minSize_y_le m hy.le)⟩

theorem cropInv_weak (m : XY) (c : Crop) (hx : 0 < m.x) (hc : CropInv m c) :
    WeakCropInv m c :=
  ⟨lt_of_lt_of_le (minSize_x_pos m hx) hc.1, hc.2.1, hc.2.2.1, hc.2.2.2.1,
    hc.2.2.2.2.1, hc.2.2.2.2.2⟩

theorem handleResizeMove_weak (ar : Option ℚ) (sn : Bool) (dir : Direction) (co : Bool)
    (m : XY) (c : Crop) (sf : XY) (ddx ddy : ℚ)
    (hx : 0 < m.x) (hy : 0 < m.y) (hc : CropInv m c) :
    WeakCropInv m (handleResizeMove ar sn dir co c m sf ddx ddy) := by
  obtain ⟨h1, h2, h3, h4, h5, h6⟩ := hc
  have hwb := resizeRawWidth_bounds dir co c m sf ddx hx h1 (by linarith)
  have hhb := resizeRawHeight_bounds dir co c m sf ddy hy h2 (by linarith)
  simp only [handleResizeMove, Box.ofCrop, Box.resize]
  cases hsnap : snapResult ar sn dir (resizeRawWidth dir co c m sf ddx)
      (resizeRawHeight dir co c m sf ddy) with
  | none =>
    simp only [hsnap]
    exact cropInv_weak m _ hx (resizeBoundary_inv m _ _ hwb.1 hwb.2 hhb.1 hhb.2)
  | some q =>
    simp only [hsnap]
    have hq := snapResult_pos ar sn dir _ _ q hsnap
    have hns := corner_ns dir (snapResult_corner ar sn dir _ _ q hsnap)
    have hnspred : (dir.incN = true ∨ dir.incS = true) := hns
    rw [if_pos hnspred]
    have hhpos : 0 < resizeRawHeight dir co c m sf ddy :=
      lt_of_lt_of_le (minSize_y_pos m hy) hhb.1
    have hqr : (0 : ℚ) < (q.1 : ℚ) / (q.2 : ℚ) :=
      div_pos (by exact_mod_cast hq.1) (by exact_mod_cast hq.2)
    exact resizeBoundary_weak m _ _ hx (mul_pos hhpos hqr) hhb.1 hhb.2

theorem handleResizeMove_noSnap_inv (ar : Option ℚ) (sn : Bool) (dir : Direction) (co : Bool)
    (m : XY) (c : Crop) (sf : XY) (ddx ddy : ℚ)
    (hx : 0 < m.x) (hy : 0 < m.y) (hc : CropInv m c)
    (hns : snapResult ar sn dir (resizeRawWidth dir co c m sf ddx)
      (resizeRawHeight dir co c m sf ddy) = none) :
    CropInv m (handleResizeMove ar sn dir co c m sf ddx ddy) := by
  obtain ⟨h1, h2, h3, h4, h5, h6⟩ := hc
  have hwb := resizeRawWidth_bounds dir co c m sf ddx hx h1 (by linarith)
  have hhb := resizeRawHeight_bounds dir co c m sf ddy hy h2 (by linarith)
  simp only [handleResizeMove, Box.ofCrop, Box.resize, hns]
  exact resizeBoundary_inv m _ _ hwb.1 hwb.2 hhb.1 hhb.2

theorem findClosestRatio_configured (r : ℚ) (hr : r ≠ 0) (w h th : ℚ) :
    findClosestRatio (some r) w h th = none := by
  simp [findClosestRatio, aspectConfigured, bne_iff_ne, hr]

theorem snapResult_configured (r : ℚ) (hr : r ≠ 0) (sn : Bool) (dir : Direction) (w h : ℚ) :
    snapResult (some r) sn dir w h = none := by
  simp [snapResult, findClosestRatio_configured r hr, ite_self]

theorem snapResult_notCorner (ar : Option ℚ) (sn : Bool) (dir : Direction) (w h : ℚ)
    (hdir : dir.isCorner = false) : snapResult ar sn dir w h = none := by
  simp [snapResult, hdir]

theorem snapResult_snapDisabled (ar : Option ℚ) (dir : Direction) (w h : ℚ) :
    snapResult ar false dir w h = none := by
  simp [snapResult]

/-- C1, counterexample.  The claim asserts the full invariant after every
committed gesture mutation, but the ratio-snap override of a corner resize can
commit a width below `minSize.x`: from the invariant-satisfying crop
`(0,0)/(100,230)` in a 1000x1000 mapped space, a south-east corner resize with
zero delta matches the inverted catalog entry 21:9 (|100/230 - 9/21| = 1/161 <
1%) and commits width `230 * 9/21 = 690/7 < 100 = minSize.x`. -/
theorem C1_counterexample :
    CropInv ⟨1000, 1000⟩ ⟨⟨0, 0⟩, ⟨100, 230⟩⟩ ∧
    handleResizeMove none true .se false ⟨⟨0, 0⟩, ⟨100, 230⟩⟩ ⟨1000, 1000⟩ ⟨1, 1⟩ 0 0 =
      ⟨⟨0, 0⟩, ⟨690 / 7, 230⟩⟩ ∧
    ¬ CropInv ⟨1000, 1000⟩
      (handleResizeMove none true .se false ⟨⟨0, 0⟩, ⟨100, 230⟩⟩ ⟨1000, 1000⟩ ⟨1, 1⟩ 0 0) := by
  norm_num [CropInv, minSize, rmin, rmax, handleResizeMove, resizeRawWidth, resizeRawHeight,
    snapResult, findClosestRatio, findRatioIn, COMMON_RATIOS, aspectConfigured, clamp,
    Box.ofCrop, Box.toBounds, Box.resize, Box.constrainToBoundary, Direction.isCorner,
    Direction.incN, Direction.incE, Direction.incS, Direction.incW, abs_lt]

/-- C1, amended: for every configuration with positive mapped dimensions and
every crop satisfying the invariant, each committed mutation of the drag, wheel
pan, wheel scale, touch pinch/pan and keyboard paths satisfies the full
invariant (minimum size per axis, the default being the lesser of 100 units and
10% of the mapped dimension, and containment in `[0, mapped]`); a pointer
handle resize satisfies the invariant with the minimum-width clause weakened to
positivity, and satisfies the full invariant whenever the ratio-snap override
does not fire. -/
theorem C1_invariant_after_mutations (m : XY) (c : Crop) (sf : XY)
    (ddx ddy dX dY dYs ipd cd iw : ℚ) (lastCenter center : XY)
    (dir kdir : Direction) (sh al cmd co sn : Bool) (ar : Option ℚ)
    (hx : 0 < m.x) (hy : 0 < m.y) (hc : CropInv m c) :
    CropInv m (handleDrag c m sf ddx ddy) ∧
    CropInv m (handleWheelPan c m sf dX dY) ∧
    CropInv m (handleWheelScale c m dYs) ∧
    CropInv m (handleTouchPinchPan c m sf ipd cd iw lastCenter center) ∧
    CropInv m (handleKeyDown kdir sh al cmd c m sf) ∧
    WeakCropInv m (handleResizeMove ar sn dir co c m sf ddx ddy) ∧
    (snapResult ar sn dir (resizeRawWidth dir co c m sf ddx)
        (resizeRawHeight dir co c m sf ddy) = none →
      CropInv m (handleResizeMove ar sn dir co c m sf ddx ddy)) :=
  ⟨handleDrag_inv m c sf ddx ddy hc,
   handleWheelPan_inv m c sf dX dY hc,
   handleWheelScale_inv m c dYs hx hy,
   handleTouchPinchPan_inv m c sf ipd cd iw lastCenter center hx hy hc,
   handleKeyDown_inv kdir sh al cmd m c sf hx hy hc,
   handleResizeMove_weak ar sn dir co m c sf ddx ddy hx hy hc,
   fun hns => handleResizeMove_noSnap_inv ar sn dir co m c sf ddx ddy hx hy hc hns⟩

/-- C1, witness: the amended theorem applied at a concrete configuration
(mapped 1000x1000, crop `(0,0)/(500,500)`, an east-edge resize for which the
snap cannot fire). -/
theorem C1_witness :
    CropInv ⟨1000, 1000⟩ (handleDrag ⟨⟨0, 0⟩, ⟨500, 500⟩⟩ ⟨1000, 1000⟩ ⟨1, 1⟩ 7 (-3)) ∧
    CropInv ⟨1000, 1000⟩ (handleWheelPan ⟨⟨0, 0⟩, ⟨500, 500⟩⟩ ⟨1000, 1000⟩ ⟨1, 1⟩ 7 (-3)) ∧
    CropInv ⟨1000, 1000⟩ (handleWheelScale ⟨⟨0, 0⟩, ⟨500, 500⟩⟩ ⟨1000, 1000⟩ 9) ∧
    CropInv ⟨1000, 1000⟩ (handleTouchPinchPan ⟨⟨0, 0⟩, ⟨500, 500⟩⟩ ⟨1000, 1000⟩ ⟨1, 1⟩
      10 20 500 ⟨0, 0⟩ ⟨5, 5⟩) ∧
    CropInv ⟨1000, 1000⟩ (handleKeyDown .e false false true ⟨⟨0, 0⟩, ⟨500, 500⟩⟩
      ⟨1000, 1000⟩ ⟨1, 1⟩) ∧
    WeakCropInv ⟨1000, 1000⟩ (handleResizeMove none true .e false ⟨⟨0, 0⟩, ⟨500, 500⟩⟩
      ⟨1000, 1000⟩ ⟨1, 1⟩ 7 (-3)) ∧
    CropInv ⟨1000, 1000⟩ (handleResizeMove none true .e false ⟨⟨0, 0⟩, ⟨500, 500⟩⟩
      ⟨1000, 1000⟩ ⟨1, 1⟩ 7 (-3)) := by
  have h := C1_invariant_after_mutations ⟨1000, 1000⟩ ⟨⟨0, 0⟩, ⟨500, 500⟩⟩ ⟨1, 1⟩
    7 (-3) 7 (-3) 9 10 20 500 ⟨0, 0⟩ ⟨5, 5⟩ .e .e false false true false true none
    (by norm_num) (by norm_num) (by norm_num [CropInv, minSize, rmin])
  exact ⟨h.1, h.2.1, h.2.2.1, h.2.2.2.1, h.2.2.2.2.1, h.2.2.2.2.2.1,
    h.2.2.2.2.2.2 (snapResult_notCorner none true .e _ _ rfl)⟩

/-- C2, counterexample.  The claim asserts that with a fixed aspect ratio and no
clamping every resize keeps `|size.x/size.y - r| < 1e-6`; the source's
ratio-lock calls are commented out (Cropper.tsx lines 542-543 and 622-629),
so an east-edge pointer resize with ratio 1 configured commits `(150, 100)`
(ratio 3/2), and a keyboard east resize commits `(105, 100)` (ratio 21/20),
both far outside the tolerance and with no boundary clamp involved. -/
theorem C2_counterexample :
    handleResizeMove (some 1) true .e false ⟨⟨0, 0⟩, ⟨100, 100⟩⟩ ⟨10000, 10000⟩ ⟨1, 1⟩ 50 0 =
      ⟨⟨0, 0⟩, ⟨150, 100⟩⟩ ∧
    ¬ (|(150 : ℚ) / 100 - 1| < 1 / 1000000) ∧
    handleKeyDown .e false false true ⟨⟨0, 0⟩, ⟨100, 100⟩⟩ ⟨10000, 10000⟩ ⟨1, 1⟩ =
      ⟨⟨0, 0⟩, ⟨105, 100⟩⟩ ∧
    ¬ (|(105 : ℚ) / 100 - 1| < 1 / 1000000) := by
  norm_num [handleResizeMove, resizeRawWidth, resizeRawHeight, snapResult, findClosestRatio,
    findRatioIn, COMMON_RATIOS, aspectConfigured, clamp, rmin, rmax, minSize, handleKeyDown,
    Box.ofCrop, Box.toBounds, Box.resize, Box.move, Box.constrainToBoundary,
    Direction.isCorner, Direction.incN, Direction.incE, Direction.incS, Direction.incW,
    abs_lt]

/-- C2, amended: resize operations apply no aspect-ratio constraint.  With any
non-zero fixed ratio configured, the pointer-resize path commits exactly what
it commits with no configured ratio and snapping disabled (the ratio-lock step
is absent and the snap catalog is never consulted), and a keyboard east resize
leaves the height untouched apart from the boundary minimum; hence the
committed `size.x / size.y` is in general not within 1e-6 of the configured
ratio. -/
theorem C2_no_ratio_enforcement (r : ℚ) (sn : Bool) (dir : Direction) (co : Bool)
    (c : Crop) (m sf : XY) (ddx ddy : ℚ) (sh al cmd : Bool) (hr : r ≠ 0) :
    handleResizeMove (some r) sn dir co c m sf ddx ddy =
      handleResizeMove none false dir co c m sf ddx ddy ∧
    (handleKeyDown .e sh al cmd c m sf).size.y = rmin c.size.y m.y := by
  constructor
  · simp only [handleResizeMove, snapResult_configured r hr, snapResult_snapDisabled]
  · cases cmd <;>
      simp [handleKeyDown, Box.ofCrop, Box.resize, Box.move, Box.toBounds,
        Box.constrainToBoundary, Direction.incN, Direction.incE, Direction.incS,
        Direction.incW]

/-- C2, witness: the amended theorem applied at ratio 1 and a concrete east-edge
resize. -/
theorem C2_witness :
    handleResizeMove (some 1) true .e false ⟨⟨0, 0⟩, ⟨100, 100⟩⟩ ⟨10000, 10000⟩ ⟨1, 1⟩ 50 0 =
      handleResizeMove none false .e false ⟨⟨0, 0⟩, ⟨100, 100⟩⟩ ⟨10000, 10000⟩ ⟨1, 1⟩ 50 0 ∧
    (handleKeyDown .e false false true ⟨⟨0, 0⟩, ⟨100, 100⟩⟩ ⟨10000, 10000⟩ ⟨1, 1⟩).size.y =
      rmin (100 : ℚ) 10000 :=
  C2_no_ratio_enforcement 1 true .e false ⟨⟨0, 0⟩, ⟨100, 100⟩⟩ ⟨10000, 10000⟩ ⟨1, 1⟩ 50 0
    false false true (by norm_num)

/-- C3 (confirmed): with no fixed aspect ratio and snapping enabled, a corner
resize whose clamped dimensions reach (400, 300) produces the snap match (4, 3)
(ratio exactly 4:3); (401, 300) also produces (4, 3) (within the 1% tolerance);
(420, 300) produces no snap match (ratio 1.4 outside every catalog tolerance).
The committed crop for the (401, 300) case shows the override forcing the
exact 4:3 box (400, 300). -/
theorem C3_snap_determinism :
    snapResult none true .se 400 300 = some (4, 3) ∧
    snapResult none true .se 401 300 = some (4, 3) ∧
    snapResult none true .se 420 300 = none ∧
    handleResizeMove none true .se false ⟨⟨0, 0⟩, ⟨401, 300⟩⟩ ⟨2000, 2000⟩ ⟨1, 1⟩ 0 0 =
      ⟨⟨0, 0⟩, ⟨400, 300⟩⟩ := by
  norm_num [handleResizeMove, resizeRawWidth, resizeRawHeight, snapResult, findClosestRatio,
    findRatioIn, COMMON_RATIOS, aspectConfigured, clamp, rmin, rmax, minSize,
    Box.ofCrop, Box.toBounds, Box.resize, Box.constrainToBoundary, Direction.isCorner,
    Direction.incN, Direction.incE, Direction.incS, Direction.incW, abs_lt]

/-- C4 (confirmed): the ratio-snap override is applied only on two-axis (corner)
resizes.  A single-axis (edge) resize never produces a snap match; with any
non-zero fixed aspect ratio configured no resize produces a snap match; and
drags and wheel pans never change the size at all, so no snap override can
touch them. -/
theorem C4_snap_only_corner (ar : Option ℚ) (r : ℚ) (sn sn' : Bool) (dir dir2 : Direction)
    (w h w2 h2 : ℚ) (c : Crop) (m sf : XY) (ddx ddy dX dY : ℚ)
    (hdir : dir.isCorner = false) (hr : r ≠ 0) :
    snapResult ar sn dir w h = none ∧
    snapResult (some r) sn' dir2 w2 h2 = none ∧
    (handleDrag c m sf ddx ddy).size = c.size ∧
    (handleWheelPan c m sf dX dY).size = c.size :=
  ⟨snapResult_notCorner ar sn dir w h hdir,
   snapResult_configured r hr sn' dir2 w2 h2,
   rfl, rfl⟩

/-- C4, witness: the theorem applied at an east edge, ratio 16/9, and a concrete
drag and pan. -/
theorem C4_witness :
    snapResult none true .e 400 300 = none ∧
    snapResult (some (16 / 9)) true .se 400 300 = none ∧
    (handleDrag ⟨⟨0, 0⟩, ⟨500, 500⟩⟩ ⟨1000, 1000⟩ ⟨1, 1⟩ 7 7).size =
      (⟨⟨0, 0⟩, ⟨500, 500⟩⟩ : Crop).size ∧
    (handleWheelPan ⟨⟨0, 0⟩, ⟨500, 500⟩⟩ ⟨1000, 1000⟩ ⟨1, 1⟩ 7 7).size =
      (⟨⟨0, 0⟩, ⟨500, 500⟩⟩ : Crop).size :=
  C4_snap_only_corner none (16 / 9) true true .e .se 400 300 400 300
    ⟨⟨0, 0⟩, ⟨500, 500⟩⟩ ⟨1000, 1000⟩ ⟨1, 1⟩ 7 7 7 7 rfl (by norm_num)

/-- C5, counterexample.  The claim asserts the multiplicative wheel scale factor
is floored away from zero and negative values; in the source the floor
`Math.max(0.001, ...)` applies to the velocity, not to the factor
`1 - deltaY * velocity`, which for `deltaY = 100` is `1 - 100 * 0.1 = -9 < 0`. -/
theorem C5_counterexample :
    wheelScaleFactor 100 = -9 ∧ wheelScaleFactor 100 < 0 := by
  norm_num [wheelScaleFactor, wheelVelocity, rmax]

/-- C5, amended: the floor applies to the velocity, which is always at least
0.001; the scale factor itself can be zero or negative, but the subsequently
clamped dimensions always land in `[minSize, mapped]`, so the committed sizes
stay positive for every finite wheel delta. -/
theorem C5_velocity_floor (deltaY : ℚ) (m : XY) (c : Crop) (hx : 0 < m.x) (hy : 0 < m.y) :
    1 / 1000 ≤ wheelVelocity deltaY ∧
    (minSize m).x ≤ (handleWheelScale c m deltaY).size.x ∧
    (handleWheelScale c m deltaY).size.x ≤ m.x ∧
    (minSize m).y ≤ (handleWheelScale c m deltaY).size.y ∧
    (handleWheelScale c m deltaY).size.y ≤ m.y ∧
    0 < (handleWheelScale c m deltaY).size.x ∧
    0 < (handleWheelScale c m deltaY).size.y := by
  obtain ⟨h1, h2, h3, h4, h5, h6⟩ := handleWheelScale_inv m c deltaY hx hy
  refine ⟨?_, h1, by linarith, h2, by linarith,
    lt_of_lt_of_le (minSize_x_pos m hx) h1, lt_of_lt_of_le (minSize_y_pos m hy) h2⟩
  rw [wheelVelocity, rmax_eq_max]
  exact le_max_left _ _

/-- C5, witness: the amended theorem at `deltaY = 100`, mapped 1000x1000 and the
crop `(0,0)/(500,500)`. -/
theorem C5_witness :
    1 / 1000 ≤ wheelVelocity 100 ∧
    (minSize ⟨1000, 1000⟩).x ≤
      (handleWheelScale ⟨⟨0, 0⟩, ⟨500, 500⟩⟩ ⟨1000, 1000⟩ 100).size.x ∧
    (handleWheelScale ⟨⟨0, 0⟩, ⟨500, 500⟩⟩ ⟨1000, 1000⟩ 100).size.x ≤ (1000 : ℚ) ∧
    (minSize ⟨1000, 1000⟩).y ≤
      (handleWheelScale ⟨⟨0, 0⟩, ⟨500, 500⟩⟩ ⟨1000, 1000⟩ 100).size.y ∧
    (handleWheelScale ⟨⟨0, 0⟩, ⟨500, 500⟩⟩ ⟨1000, 1000⟩ 100).size.y ≤ (1000 : ℚ) ∧
    0 < (handleWheelScale ⟨⟨0, 0⟩, ⟨500, 500⟩⟩ ⟨1000, 1000⟩ 100).size.x ∧
    0 < (handleWheelScale ⟨⟨0, 0⟩, ⟨500, 500⟩⟩ ⟨1000, 1000⟩ 100).size.y :=
  C5_velocity_floor 100 ⟨1000, 1000⟩ ⟨⟨0, 0⟩, ⟨500, 500⟩⟩ (by norm_num) (by norm_num)

/-- C6, counterexample.  The claim asserts events with non-finite computed
deltas are discarded and the crop left unchanged; the drag path has no
finiteness check: a `+∞` container delta maps to the non-finite delta `+∞`
(`∞ / 1 = ∞`) and the mutation still commits, moving the crop from x = 0 to
x = 500 (the clamp's upper bound). -/
theorem C6_counterexample :
    FVal.inf.sub (.fin 0) = FVal.inf ∧
    FVal.inf.div (.fin 1) = FVal.inf ∧
    handleDragF ⟨⟨0, 0⟩, ⟨500, 500⟩⟩ ⟨1000, 1000⟩ ⟨1, 1⟩ .inf (.fin 0) =
      (.fin 500, .fin 0) ∧
    (FVal.fin 500 ≠ FVal.fin ((⟨⟨0, 0⟩, ⟨500, 500⟩⟩ : Crop).position.x)) := by
  refine ⟨by norm_num [FVal.sub], by norm_num [FVal.div], ?_, by norm_num⟩
  norm_num [handleDragF, FVal.div, FVal.add, FVal.clampF, FVal.jsMin, FVal.jsMax, rmin, rmax]

/-- C6, amended: events whose computed delta is non-finite are not discarded;
the Box mutation runs on them.  For any crop inside the boundary and positive
x scale factor, a `+∞` drag delta commits position `mapped.x - size.x` (the
clamp absorbs the infinity at its upper bound), a `-∞` delta commits 0, and a
`NaN` delta commits a `NaN` position (JS `Math.min`/`Math.max` propagate it). -/
theorem C6_no_discard (c : Crop) (m sf : XY) (ddy : FVal)
    (hsf : 0 < sf.x) (hb : 0 ≤ m.x - c.size.x) :
    (handleDragF c m sf .inf ddy).1 = .fin (m.x - c.size.x) ∧
    (handleDragF c m sf .ninf ddy).1 = .fin 0 ∧
    (handleDragF c m sf .nan ddy).1 = .nan := by
  simp only [handleDragF, FVal.div, if_neg (not_lt.mpr hsf.le)]
  simp only [FVal.add, FVal.clampF, FVal.jsMin, FVal.jsMax]
  refine ⟨?_, trivial, trivial⟩
  rw [rmax_eq_max, max_eq_right hb]

/-- C6, witness: the amended theorem at mapped 1000x1000, crop `(100,100)` of
size `(500,500)`, scale factor 1. -/
theorem C6_witness :
    (handleDragF ⟨⟨100, 100⟩, ⟨500, 500⟩⟩ ⟨1000, 1000⟩ ⟨1, 1⟩ .inf (.fin 0)).1 =
      .fin (1000 - 500) ∧
    (handleDragF ⟨⟨100, 100⟩, ⟨500, 500⟩⟩ ⟨1000, 1000⟩ ⟨1, 1⟩ .ninf (.fin 0)).1 = .fin 0 ∧
    (handleDragF ⟨⟨100, 100⟩, ⟨500, 500⟩⟩ ⟨1000, 1000⟩ ⟨1, 1⟩ .nan (.fin 0)).1 = .nan :=
  C6_no_discard ⟨⟨100, 100⟩, ⟨500, 500⟩⟩ ⟨1000, 1000⟩ ⟨1, 1⟩ (.fin 0)
    (by norm_num) (by norm_num)

/-- C7 (confirmed): with mapped size 1000x1000, scale factor 1 and initial crop
`(0,0)/(500,500)`, a drag of cumulative container delta `(+700, 0)` commits
position `(500, 0)` with the size unchanged at `(500, 500)` — both as a single
move event and as two monotone moves of `+350` each. -/
theorem C7_drag_scenario :
    handleDrag ⟨⟨0, 0⟩, ⟨500, 500⟩⟩ ⟨1000, 1000⟩ ⟨1, 1⟩ 700 0 =
      ⟨⟨500, 0⟩, ⟨500, 500⟩⟩ ∧
    dragGestureCode ⟨1, 1⟩ ⟨⟨0, 0⟩, ⟨500, 500⟩⟩ ⟨1000, 1000⟩
      [⟨350, 0, ⟨1, 1⟩⟩, ⟨350, 0, ⟨1, 1⟩⟩] = ⟨⟨500, 0⟩, ⟨500, 500⟩⟩ := by
  constructor <;>
    norm_num [dragGestureCode, List.foldl, handleDrag, Box.ofCrop, Box.move, Box.toBounds,
      clamp, rmin, rmax]

/-- C8, counterexample.  The claim asserts delta conversion always uses the
scale factors current at each event; `handleDragStart` captures the factors
once (Cropper.tsx line 258) and every move of the gesture reuses them: with
factors `(1,1)` at gesture start and `(2,2)` current at the (only) move event
(a container resize happened mid-gesture), the code commits x = 100/1 = 100,
while conversion with the event-time factors would commit x = 100/2 = 50. -/
theorem C8_counterexample :
    dragGestureCode ⟨1, 1⟩ ⟨⟨0, 0⟩, ⟨500, 500⟩⟩ ⟨1000, 1000⟩ [⟨100, 0, ⟨2, 2⟩⟩] =
      ⟨⟨100, 0⟩, ⟨500, 500⟩⟩ ∧
    dragGestureSpec ⟨⟨0, 0⟩, ⟨500, 500⟩⟩ ⟨1000, 1000⟩ [⟨100, 0, ⟨2, 2⟩⟩] =
      ⟨⟨50, 0⟩, ⟨500, 500⟩⟩ ∧
    dragGestureCode ⟨1, 1⟩ ⟨⟨0, 0⟩, ⟨500, 500⟩⟩ ⟨1000, 1000⟩ [⟨100, 0, ⟨2, 2⟩⟩] ≠
      dragGestureSpec ⟨⟨0, 0⟩, ⟨500, 500⟩⟩ ⟨1000, 1000⟩ [⟨100, 0, ⟨2, 2⟩⟩] := by
  refine ⟨?_, ?_, ?_⟩ <;>
    norm_num [dragGestureCode, dragGestureSpec, List.foldl, handleDrag, Box.ofCrop,
      Box.move, Box.toBounds, clamp, rmin, rmax, Crop.mk.injEq, XY.mk.injEq]

/-- C8, amended: the drag gesture uses the scale factors captured at gesture
start for every one of its events; the factors current at individual events are
ignored, so a container resize mid-gesture does not change the conversion of
that gesture's subsequent deltas.  (The wheel and touch handlers, by contrast,
read the current factors on each event: `handleWheel` line 315 and
`handleTouchMove` lines 389, 404.)  Formally, rewriting every event's
event-time factors arbitrarily leaves the committed result unchanged. -/
theorem C8_captured_factors (sfAtStart : XY) (c : Crop) (m : XY) (events : List DragEvent)
    (f : DragEvent → XY) :
    dragGestureCode sfAtStart c m events =
      dragGestureCode sfAtStart c m (events.map fun e => ⟨e.ddx, e.ddy, f e⟩) := by
  induction events generalizing c with
  | nil => rfl
  | cons e t ih =>
    simp only [dragGestureCode, List.map, List.foldl] at ih ⊢
    exact ih (handleDrag c m sfAtStart e.ddx e.ddy)

/-- C9 (confirmed): the Position Advisor (leading = "top", trailing = "bottom",
the default side; triggering margin 40, hysteresis margin 50 > 40).  When
currently on the leading side and the trailing side has more than
`panelHeight + 50` of space, a switch back to trailing is scheduled; when
neither side has the triggering `panelHeight + 40` of space, the advisor ends
on whichever side has strictly more space (scheduling a switch when that is
the other side, scheduling nothing when it is the current one). -/
theorem C9_advisor_policy (bottomSpace topSpace boxHeight : ℚ) :
    (boxHeight + 50 < bottomSpace →
      updateRecordingBoxPosition .top bottomSpace topSpace boxHeight = some .bottom) ∧
    (topSpace < boxHeight + 40 → bottomSpace < boxHeight + 40 →
      (bottomSpace < topSpace →
        updateRecordingBoxPosition .bottom bottomSpace topSpace boxHeight = some .top ∧
        updateRecordingBoxPosition .top bottomSpace topSpace boxHeight = none) ∧
      (topSpace < bottomSpace →
        updateRecordingBoxPosition .top bottomSpace topSpace boxHeight = some .bottom ∧
        updateRecordingBoxPosition .bottom bottomSpace topSpace boxHeight = none)) := by
  refine ⟨fun h1 => ?_, fun h2 h3 => ⟨fun h4 => ⟨?_, ?_⟩, fun h5 => ⟨?_, ?_⟩⟩⟩ <;>
    simp only [updateRecordingBoxPosition] <;>
    split_ifs <;> first | rfl | linarith

/-- C9, witness: the policy theorem applied at panel height 100 with spaces
(bottom 200, top 10) for the hysteresis switch-back and (bottom 10, top 20) /
(bottom 30, top 20) for the neither-side-fits cases. -/
theorem C9_witness :
    updateRecordingBoxPosition .top 200 10 100 = some .bottom ∧
    (updateRecordingBoxPosition .bottom 10 20 100 = some .top ∧
      updateRecordingBoxPosition .top 10 20 100 = none) ∧
    (updateRecordingBoxPosition .top 30 20 100 = some .bottom ∧
      updateRecordingBoxPosition .bottom 30 20 100 = none) :=
  ⟨(C9_advisor_policy 200 10 100).1 (by norm_num),
   ((C9_advisor_policy 10 20 100).2 (by norm_num) (by norm_num)).1 (by norm_num),
   ((C9_advisor_policy 30 20 100).2 (by norm_num) (by norm_num)).2 (by norm_num)⟩

/-- C10 (confirmed): manual text entry on the size fields commits the parsed
integer `n` as that axis's size exactly when `n ≥ 50`, with the position
unchanged and no minimum-size, boundary or aspect-ratio constraint applied (the
handlers consult neither the mapped size nor the configured ratio, so `n`
beyond the mapped dimension is committed as-is); a failed parse or `n < 50`
leaves the committed geometry unchanged.  The position fields behave the same
with threshold `n ≥ 0` and the size unchanged. -/
theorem C10_manual_entry (c : Crop) (s : String) (n : ℤ) :
    (jsParseInt s = some n → 50 ≤ n →
      handleSizeXChange c s = ⟨c.position, ⟨(n : ℚ), c.size.y⟩⟩ ∧
      handleSizeYChange c s = ⟨c.position, ⟨c.size.x, (n : ℚ)⟩⟩) ∧
    (jsParseInt s = some n → n < 50 →
      handleSizeXChange c s = c ∧ handleSizeYChange c s = c) ∧
    (jsParseInt s = none →
      handleSizeXChange c s = c ∧ handleSizeYChange c s = c ∧
      handlePositionChange .x c s = c ∧ handlePositionChange .y c s = c) ∧
    (jsParseInt s = some n → 0 ≤ n →
      handlePositionChange .x c s = ⟨⟨(n : ℚ), c.position.y⟩, c.size⟩ ∧
      handlePositionChange .y c s = ⟨⟨c.position.x, (n : ℚ)⟩, c.size⟩) ∧
    (jsParseInt s = some n → n < 0 →
      handlePositionChange .x c s = c ∧ handlePositionChange .y c s = c) := by
  refine ⟨fun hp hn => ?_, fun hp hn => ?_, fun hp => ?_, fun hp hn => ?_, fun hp hn => ?_⟩
  · simp [handleSizeXChange, handleSizeYChange, hp, hn]
  · simp [handleSizeXChange, handleSizeYChange, hp, not_le.mpr hn]
  · simp [handleSizeXChange, handleSizeYChange, handlePositionChange, hp]
  · simp [handlePositionChange, hp, hn]
  · simp [handlePositionChange, hp, not_le.mpr hn]

/-- C10, witness: the theorem at the inputs "2000" (committed as-is although it
exceeds any mapped dimension), "49" (below the size threshold), "abc" (failed
parse) and "-3" (below the position threshold). -/
theorem C10_witness :
    (handleSizeXChange ⟨⟨0, 0⟩, ⟨500, 500⟩⟩ "2000" = ⟨⟨0, 0⟩, ⟨2000, 500⟩⟩ ∧
      handleSizeYChange ⟨⟨0, 0⟩, ⟨500, 500⟩⟩ "2000" = ⟨⟨0, 0⟩, ⟨500, 2000⟩⟩) ∧
    (handleSizeXChange ⟨⟨0, 0⟩, ⟨500, 500⟩⟩ "49" = ⟨⟨0, 0⟩, ⟨500, 500⟩⟩ ∧
      handleSizeYChange ⟨⟨0, 0⟩, ⟨500, 500⟩⟩ "49" = ⟨⟨0, 0⟩, ⟨500, 500⟩⟩) ∧
    (handleSizeXChange ⟨⟨0, 0⟩, ⟨500, 500⟩⟩ "abc" = ⟨⟨0, 0⟩, ⟨500, 500⟩⟩ ∧
      handlePositionChange .x ⟨⟨0, 0⟩, ⟨500, 500⟩⟩ "abc" = ⟨⟨0, 0⟩, ⟨500, 500⟩⟩) ∧
    (handlePositionChange .x ⟨⟨0, 0⟩, ⟨500, 500⟩⟩ "30" = ⟨⟨30, 0⟩, ⟨500, 500⟩⟩ ∧
      handlePositionChange .y ⟨⟨0, 0⟩, ⟨500, 500⟩⟩ "-3" = ⟨⟨0, 0⟩, ⟨500, 500⟩⟩) := by
  have h2000 := C10_manual_entry ⟨⟨0, 0⟩, ⟨500, 500⟩⟩ "2000" 2000
  have h49 := C10_manual_entry ⟨⟨0, 0⟩, ⟨500, 500⟩⟩ "49" 49
  have habc := C10_manual_entry ⟨⟨0, 0⟩, ⟨500, 500⟩⟩ "abc" 0
  have h30 := C10_manual_entry ⟨⟨0, 0⟩, ⟨500, 500⟩⟩ "30" 30
  have hm3 := C10_manual_entry ⟨⟨0, 0⟩, ⟨500, 500⟩⟩ "-3" (-3)
  exact ⟨h2000.1 (by decide) (by decide),
    h49.2.1 (by decide) (by decide),
    ⟨(habc.2.2.1 (by decide)).1, (habc.2.2.1 (by decide)).2.2.1⟩,
    ⟨(h30.2.2.2.1 (by decide) (by decide)).1, (hm3.2.2.2.2 (by decide) (by decide)).2⟩⟩

end Cropper
